import Mathlib

/-!
Shallow embedding of the vCard parser/validator/serializer
(`src/assign3/src/VCParser.c`, `src/assign3/src/CardWriter.c`).

Strings are modelled as `List Char`; C `NULL`-pointer failure results become
`Option`/`Except` values.  Allocation failures (`malloc` returning `NULL`) are
not modelled: in the embedding every allocation succeeds, so the corresponding
`OTHER_ERROR` branches of the source are kept but unreachable.  File I/O is
modelled by passing the list of physical lines of the file; each physical line
carries its text (without the terminator) and a flag saying whether the raw
line ended with the exact CRLF terminator.
-/

namespace VC

abbrev Str := List Char

/-- C `isspace` for the default locale (ASCII input assumed, as in the repo). -/
def isSpaceC (c : Char) : Bool :=
  c == ' ' || c == '\t' || c == '\n' || c == '\x0B' || c == '\x0C' || c == '\r'

/-- C `tolower` on ASCII, used by `strcasecmp`. -/
def toLowerC (c : Char) : Char :=
  if 'A' ≤ c ∧ c ≤ 'Z' then Char.ofNat (c.toNat + 32) else c

/-- `strcasecmp(a, b) == 0`: case-insensitive string equality. -/
def ciEqStr (a b : Str) : Bool :=
  a.map toLowerC == b.map toLowerC

/-- `trimWhitespace` (VCParser.c:43): drop leading and trailing whitespace. -/
def trimWhitespace (s : Str) : Str :=
  ((s.dropWhile isSpaceC).reverse.dropWhile isSpaceC).reverse

/-- `strchr(s, c)`: if `c` occurs in `s`, the text before the first occurrence
and the text after it. -/
def splitAtFirst (c : Char) (s : Str) : Option (Str × Str) :=
  if s.contains c then
    some (s.takeWhile (· != c), (s.dropWhile (· != c)).drop 1)
  else
    none

/-- `strstr(s, pat) != NULL`: `pat` occurs as a contiguous substring of `s`. -/
def hasSub (pat : Str) : Str → Bool
  | [] => pat.isEmpty
  | c :: rest => pat.isPrefixOf (c :: rest) || hasSub pat rest

/-- The pattern of the phone-extension heuristic in `listToString`. -/
def extPat : Str := "ext=".toList

/-- Split a string at every occurrence of a delimiter (i.e. the list of
maximal delimiter-free segments, keeping empty segments). -/
def splitOnChar (d : Char) : Str → List Str
  | [] => [[]]
  | c :: rest =>
    if c == d then
      [] :: splitOnChar d rest
    else
      match splitOnChar d rest with
      | [] => [[c]]
      | t :: ts => (c :: t) :: ts

/-- Successive `strtok(_, d)` calls: the delimiter-separated tokens of `s`,
with empty tokens skipped (`strtok` treats runs of delimiters as one). -/
def tokenize (s : Str) (d : Char) : List Str :=
  (splitOnChar d s).filter (fun t => !t.isEmpty)

/-- Concatenation of a list of strings. -/
def concatAll : List Str → Str
  | [] => []
  | s :: rest => s ++ concatAll rest

/-- Join a list of strings with a single-character delimiter. -/
def joinWith (d : Char) : List Str → Str
  | [] => []
  | [v] => v
  | v :: rest => v ++ d :: joinWith d rest

/-- Drop the final element of a list of strings when it is empty.  The field
loop of `addValuesToList` (VCParser.c:73-101) stops when `start` reaches the
terminator, so the segment following the last delimiter is emitted only when
it is non-empty. -/
def dropLastEmpty : List Str → List Str
  | [] => []
  | [x] => if x.isEmpty then [] else [x]
  | x :: rest => x :: dropLastEmpty rest

/-- The `delimiter == ';'` branch of `addValuesToList` (VCParser.c:64-104):
the ';'-separated fields of `value`, each trimmed, emitted in order by the
`strchr` loop.  An empty `value` produces no fields (the loop body never
runs), and the field after the final ';' is dropped when empty. -/
def splitCompound (s : Str) : List Str :=
  (dropLastEmpty (splitOnChar ';' s)).map trimWhitespace

structure Parameter where
  name : Str
  value : Str
deriving DecidableEq, Repr

structure Property where
  name : Str
  group : Str
  parameters : List Parameter
  values : List Str
deriving DecidableEq, Repr

/-- `DateTime` (VCParser.h).  The constructor always fills `date`, `time` and
`text` with (possibly empty) strings, so the C `NULL`-pointer guards of
`validateDateTime` are unreachable and not modelled. -/
structure DateTime where
  UTC : Bool
  isText : Bool
  date : Str
  time : Str
  text : Str
deriving DecidableEq, Repr

/-- `Card` (VCParser.h).  `optionalProperties` is an `Option` because the C
struct holds a `List*` that may be `NULL` (checked by `validateCard`). -/
structure Card where
  fn : Option Property
  optionalProperties : Option (List Property)
  birthday : Option DateTime
  anniversary : Option DateTime
deriving DecidableEq, Repr

inductive VCardErrorCode where
  | OK | INV_FILE | INV_CARD | INV_PROP | INV_DT | WRITE_ERROR | OTHER_ERROR
deriving DecidableEq, Repr

/-- `isCompoundProperty` (VCParser.c:38): case-insensitive N / ADR. -/
def isCompoundProperty (name : Str) : Bool :=
  ciEqStr name "N".toList || ciEqStr name "ADR".toList

/-- `createDateTime` (VCParser.c:216-280).  The allocation-failure `NULL`
returns are not modelled. -/
def createDateTime (value : Str) (textFlag : Bool) : DateTime :=
  if textFlag then
    { UTC := false, isText := true, date := [], time := [], text := value }
  else if value.head? = some 'T' then
    { UTC := false, isText := false, date := [], time := value.tail, text := [] }
  else
    match splitAtFirst 'T' value with
    | some (d, t) =>
      { UTC := false, isText := false, date := d, time := t, text := [] }
    | none =>
      { UTC := false, isText := false, date := value, time := [], text := [] }

/-- One iteration chain of the `while (semicolon != NULL)` loop of
`validateParameters` (VCParser.c:286-302), on the text after the current ';'.
The fuel argument bounds the number of iterations; it is initialised above the
string length, and every iteration strictly shrinks the string, so the fuel
never runs out. -/
def validateParamsTailF : Nat → Str → Bool
  | 0, _ => true
  | fuel + 1, rest =>
    match rest.findIdx? (fun c => c == '='), rest.findIdx? (fun c => c == ';') with
    | none, _ => false
    | some e, none =>
      let vs := (rest.drop (e + 1)).dropWhile isSpaceC
      if vs.isEmpty ∨ vs.head? = some ';' then false else true
    | some e, some s2 =>
      if e < s2 then
        let vs := (rest.drop (e + 1)).dropWhile isSpaceC
        if vs.isEmpty ∨ vs.head? = some ';' then false
        else validateParamsTailF fuel (rest.drop (s2 + 1))
      else false

/-- `validateParameters` (VCParser.c:282-304). -/
def validateParameters (name : Str) : Bool :=
  match name.findIdx? (fun c => c == ';') with
  | none => true
  | some i => validateParamsTailF (name.length + 1) (name.drop (i + 1))

/-- The parameter loop of `parseParameters` (VCParser.c:159-190): each
`strtok` token after the base name must split at its first '=' into a
non-empty trimmed name and value. -/
def parseParamTokens : List Str → Option (List Parameter)
  | [] => some []
  | tok :: rest =>
    match splitAtFirst '=' tok with
    | none => none
    | some (n, v) =>
      let pn := trimWhitespace n
      let pv := trimWhitespace v
      if pn.isEmpty ∨ pv.isEmpty then none
      else
        match parseParamTokens rest with
        | none => none
        | some ps => some (⟨pn, pv⟩ :: ps)

/-- `parseParameters` (VCParser.c:139-194): base name and parameter list from
the property-name string (after any group prefix was removed). -/
def parseParameters (s : Str) : Option (Str × List Parameter) :=
  match tokenize s ';' with
  | [] => none
  | base :: toks =>
    match parseParamTokens toks with
    | none => none
    | some ps => some (base, ps)

/-- `createProperty` (VCParser.c:306-388). -/
def createProperty (name value : Str) : Option Property :=
  if validateParameters name = false then none
  else
    let gr :=
      match splitAtFirst '.' name with
      | some (before, after) => (before, after)
      | none => (([] : Str), name)
    match parseParameters gr.2 with
    | none => none
    | some (base, params) =>
      let vals := if isCompoundProperty base then splitCompound value else [value]
      some { name := base, group := gr.1, parameters := params, values := vals }

/-- One physical line of the input file, as delivered by `fgets`: the text
without its terminator, and whether the raw line ended with exactly CRLF
(`hasValidLineEnding`, VCParser.c:391). -/
structure PhysLine where
  content : Str
  crlf : Bool
deriving DecidableEq, Repr

/-- Result of `readFoldedLine` (VCParser.c:400): end of input (`fgets`
returned `NULL`), a line-format error (the function returns `NULL` with
`buffer[0] = '\0'`), or a logical line together with the unconsumed physical
lines. -/
inductive ReadResult where
  | eof
  | badLine
  | line (content : Str) (rest : List PhysLine)
deriving DecidableEq, Repr

/-- `isContinuationLine` (VCParser.c:396): the raw line starts with a space
or a horizontal tab. -/
def isContinuation (s : Str) : Bool :=
  match s with
  | c :: _ => c == ' ' || c == '\t'
  | [] => false

/-- Size of the fixed `nextLine[1000]` buffer used for peeking continuation
lines (VCParser.c:419). -/
def nextBufCap : Nat := 1000

/-- The continuation-folding loop of `readFoldedLine` (VCParser.c:422-458)
over the remaining physical lines, with `buf` the logical line built so far.
A raw continuation line longer than the peek buffer is read back by `fgets`
without its terminator, which the terminator check then rejects, so it is a
`badLine` like a line without CRLF. -/
def foldLoop (bufSize : Nat) (buf : Str) : List PhysLine → ReadResult
  | [] => .line buf []
  | n :: rest =>
    if isContinuation n.content = false then .line buf (n :: rest)
    else if n.crlf = false ∨ n.content.length + 2 > nextBufCap - 1 then .badLine
    else
      let folded := (n.content.drop 1).dropWhile isSpaceC
      if folded.length < bufSize - buf.length - 1 then
        foldLoop bufSize (buf ++ folded) rest
      else
        .line buf (n :: rest)

/-- `readFoldedLine` (VCParser.c:400-461).  `bufSize` is the capacity of the
destination buffer (`sizeof(line) == 1000` at both call sites); a first line
that does not fit in it is read without its terminator and rejected. -/
def readFoldedLine (bufSize : Nat) : List PhysLine → ReadResult
  | [] => .eof
  | l :: rest =>
    if l.crlf = false ∨ l.content.length + 2 > bufSize - 1 then .badLine
    else foldLoop bufSize l.content rest

/-- The parse-state accumulated by `createCard`'s body loop: the card fields
under construction plus the `foundFN` / `foundVersion` / `validVersion`
flags (VCParser.c:640-642). -/
structure BuildState where
  fn : Option Property
  optionalProperties : List Property
  birthday : Option DateTime
  anniversary : Option DateTime
  foundFN : Bool
  foundVersion : Bool
  validVersion : Bool
deriving DecidableEq, Repr

/-- The initial parse state of `createCard` (VCParser.c:626-642). -/
def startState : BuildState :=
  { fn := none, optionalProperties := [], birthday := none, anniversary := none,
    foundFN := false, foundVersion := false, validVersion := false }

/-- The `VALUE=text` parameter scan of `handleSpecialProperty`
(VCParser.c:509-518, 537-546). -/
def hasTextParam (p : Property) : Bool :=
  p.parameters.any (fun pa => ciEqStr pa.name "VALUE".toList && ciEqStr pa.value "text".toList)

/-- `handleSpecialProperty` (VCParser.c:464-560): dispatch on the base
property name (the name truncated at its first ';'), handling VERSION, FN,
ANNIVERSARY and BDAY; any other name leaves the state unchanged. -/
def handleSpecialProperty (st : BuildState) (propName propValue : Str) :
    Except VCardErrorCode BuildState :=
  let base := propName.takeWhile (· != ';')
  if ciEqStr base "VERSION".toList then
    if st.foundVersion then .error .INV_CARD
    else
      .ok { st with foundVersion := true,
                    validVersion := if propValue == "4.0".toList then true else st.validVersion }
  else if ciEqStr base "FN".toList then
    match st.fn with
    | some _ => .ok { st with foundFN := true }
    | none =>
      match createProperty propName propValue with
      | none => .error .OTHER_ERROR
      | some p => .ok { st with foundFN := true, fn := some p }
  else if ciEqStr base "ANNIVERSARY".toList then
    match st.anniversary with
    | some _ => .error .INV_CARD
    | none =>
      match createProperty propName propValue with
      | none => .error .OTHER_ERROR
      | some tmp =>
        .ok { st with anniversary := some (createDateTime propValue (hasTextParam tmp)) }
  else if ciEqStr base "BDAY".toList then
    match st.birthday with
    | some _ => .error .INV_CARD
    | none =>
      match createProperty propName propValue with
      | none => .error .OTHER_ERROR
      | some tmp =>
        .ok { st with birthday := some (createDateTime propValue (hasTextParam tmp)) }
  else
    .ok st

/-- `validatePropertyLine` (VCParser.c:562-603): split a logical line at its
first ':' into a trimmed, non-empty name and value. -/
def validatePropertyLine (line : Str) : Except VCardErrorCode (Str × Str) :=
  match splitAtFirst ':' line with
  | none => .error .INV_PROP
  | some (n, v) =>
    let tn := trimWhitespace n
    let tv := trimWhitespace v
    if tn.isEmpty ∨ tv.isEmpty then .error .INV_PROP
    else .ok (tn, tv)

/-- The `BEGIN:VCARD` seek loop of `createCard` (VCParser.c:647-653).  The
fuel bounds the number of loop iterations; every call of `readFoldedLine`
consumes at least one physical line, so `length + 1` fuel always suffices.
`none` covers both end-of-input and a malformed line, which `createCard`
turns into `INV_CARD` either way (VCParser.c:656-668). -/
def seekBeginF : Nat → List PhysLine → Option (List PhysLine)
  | 0, _ => none
  | fuel + 1, lines =>
    match readFoldedLine 1000 lines with
    | .eof => none
    | .badLine => none
    | .line content rest =>
      if ciEqStr (trimWhitespace content) "BEGIN:VCARD".toList then some rest
      else seekBeginF fuel rest

def seekBegin (lines : List PhysLine) : Option (List PhysLine) :=
  seekBeginF (lines.length + 1) lines

/-- The body loop of `createCard` (VCParser.c:672-781), returning the final
state and whether `END:VCARD` was seen.  The fuel bounds the number of loop
iterations exactly as in `seekBeginF`. -/
def processBodyF : Nat → List PhysLine → BuildState →
    Except VCardErrorCode (BuildState × Bool)
  | 0, _, _ => .error .OTHER_ERROR
  | fuel + 1, lines, st =>
    match readFoldedLine 1000 lines with
    | .eof => .ok (st, false)
    | .badLine => .error .INV_CARD
    | .line content rest =>
      if content.isEmpty then .error .INV_CARD
      else
      let trimmed := trimWhitespace content
      if ciEqStr trimmed "END:VCARD".toList then .ok (st, true)
      else
        match validatePropertyLine trimmed with
        | .error e => .error e
        | .ok (propName, propValue) =>
          match createProperty propName propValue with
          | none =>
            if propName.contains ';' then .error .INV_PROP else .error .OTHER_ERROR
          | some tempProp =>
            if tempProp.name.isEmpty then .error .INV_PROP
            else
              match handleSpecialProperty st propName propValue with
              | .error e => .error e
              | .ok st1 =>
                let base := propName.takeWhile (· != ';')
                if ciEqStr base "VERSION".toList ∨ ciEqStr base "FN".toList ∨
                    ciEqStr base "BDAY".toList ∨ ciEqStr base "ANNIVERSARY".toList then
                  processBodyF fuel rest st1
                else
                  match createProperty propName propValue with
                  | none => .error .OTHER_ERROR
                  | some p =>
                    processBodyF fuel rest
                      { st1 with optionalProperties := st1.optionalProperties ++ [p] }

def processBody (lines : List PhysLine) (st : BuildState) :
    Except VCardErrorCode (BuildState × Bool) :=
  processBodyF (lines.length + 1) lines st

/-- `createCard` (VCParser.c:605-794), from the point where the file has been
opened, with the file contents given as physical lines.  The `fileName`
checks and `fopen` (INV_FILE results) are file-system concerns outside the
embedding. -/
def createCardLines (lines : List PhysLine) : Except VCardErrorCode Card :=
  match seekBegin lines with
  | none => .error .INV_CARD
  | some rest =>
    match processBody rest startState with
    | .error e => .error e
    | .ok (st, foundEnd) =>
      if foundEnd = false ∨ st.foundFN = false ∨ st.foundVersion = false ∨
          st.validVersion = false then
        .error .INV_CARD
      else
        .ok { fn := st.fn, optionalProperties := some st.optionalProperties,
              birthday := st.birthday, anniversary := st.anniversary }

/-- Parameter-value quoting in `propertyToString` (VCParser.c:1093-1101): a
value containing ',' or ';' is wrapped in double quotes unless it already
contains a double quote. -/
def quoteParamValue (v : Str) : Str :=
  if (v.contains ',' || v.contains ';') && !(v.contains '"') then
    '"' :: (v ++ ['"'])
  else v

/-- The text `propertyToString` appends for one parameter: `;NAME=VALUE` with
the value quoted when needed. -/
def paramToChunk (pa : Parameter) : Str :=
  ';' :: (pa.name ++ '=' :: quoteParamValue pa.value)

/-- `propertyToString` (VCParser.c:1044-1142):
`[GROUP.]NAME[;PARAM=VALUE]*:value<delim>value...` with delimiter ';' for the
compound properties (N, ADR) and ',' otherwise.  The buffer-capacity early
returns of the source are guards on an allocation sized to exceed the output
and are unreachable, hence not modelled. -/
def propertyToString (p : Property) : Str :=
  (if p.group.isEmpty then [] else p.group ++ ['.'])
    ++ p.name
    ++ concatAll (p.parameters.map paramToChunk)
    ++ ':' :: joinWith (if isCompoundProperty p.name then ';' else ',') p.values

/-- Which `printData` function the `List` being printed carries: `paramK`
models `printData == parameterToString` (VCParser.c:1021); everything else
(value lists, and the property list printed by `cardToString`) takes the
other branch. -/
inductive PrintKind where
  | paramK
  | otherK
deriving DecidableEq, Repr

/-- The separator-and-element tail of `listToString` (VCParser.c:1019-1035):
before each element after the first, ';' for parameter lists, otherwise ';'
when that element's string contains `ext=` and ',' when it does not. -/
def listToStringTail (k : PrintKind) : List Str → Str
  | [] => []
  | s :: rest =>
    (match k with
     | .paramK => ';'
     | .otherK => if hasSub extPat s then ';' else ',') :: s ++ listToStringTail k rest

/-- `listToString` (VCParser.c:981-1042), with the elements already rendered
by the list's `printData` function. -/
def listToString (k : PrintKind) : List Str → Str
  | [] => []
  | s :: rest => s ++ listToStringTail k rest

/-- `dateToString` (VCParser.c:1255-1289): the text for a text-mode value,
otherwise date and time concatenated directly, with " UTC" appended when the
UTC flag is set. -/
def dateToString (dt : DateTime) : Str :=
  if dt.isText then dt.text
  else dt.date ++ dt.time ++ (if dt.UTC then " UTC".toList else [])

/-- The BDAY/ANNIVERSARY line written by `writeCard`
(CardWriter.c:65-123): `NAME;VALUE=text:<text>` in text mode, `NAME:T<time>`
for a time-only value, and otherwise `NAME:` followed by `dateToString`. -/
def dtLine (nm : Str) (dt : DateTime) : Str :=
  if dt.isText then nm ++ ";VALUE=text:".toList ++ dt.text
  else if dt.date.isEmpty && !dt.time.isEmpty then nm ++ ':' :: 'T' :: dt.time
  else nm ++ ':' :: dateToString dt

/-- The sequence of lines `writeCard` (CardWriter.c:6-133) prints, each
followed by CRLF in the file.  A `NULL` `fn`, `optionalProperties`,
`birthday` or `anniversary` is silently skipped. -/
def writeCardLines (c : Card) : List Str :=
  ["BEGIN:VCARD".toList, "VERSION:4.0".toList]
    ++ (match c.fn with | none => [] | some f => [propertyToString f])
    ++ (match c.optionalProperties with | none => [] | some l => l.map propertyToString)
    ++ (match c.birthday with | none => [] | some d => [dtLine "BDAY".toList d])
    ++ (match c.anniversary with | none => [] | some d => [dtLine "ANNIVERSARY".toList d])
    ++ ["END:VCARD".toList]

/-- `writeCard` (CardWriter.c:6-133).  A `NULL` card is a `WRITE_ERROR`; the
file is modelled as writable, so every other call succeeds with the lines of
`writeCardLines` (the source's remaining `WRITE_ERROR` paths are `fopen` /
`fprintf` failures of the output target). -/
def writeCard : Option Card → Except VCardErrorCode (List Str)
  | none => .error .WRITE_ERROR
  | some c => .ok (writeCardLines c)

/-- The whitelist of `isValidPropertyName` (CardWriter.c:136-151). -/
def validNames : List Str :=
  ["FN", "N", "NICKNAME", "PHOTO", "BDAY", "ANNIVERSARY", "GENDER",
   "ADR", "TEL", "EMAIL", "IMPP", "LANG", "TZ", "GEO", "TITLE",
   "ROLE", "LOGO", "ORG", "MEMBER", "RELATED", "CATEGORIES",
   "NOTE", "PRODID", "REV", "SOUND", "UID", "CLIENTPIDMAP", "URL"].map String.toList

/-- `isValidPropertyName` (CardWriter.c:136-151): exact (`strcmp`,
case-sensitive) membership in the whitelist. -/
def isValidPropertyName (name : Str) : Bool :=
  validNames.contains name

/-- `validateDateTime` (CardWriter.c:154-193).  The embedded `DateTime`
always holds strings, so the `NULL`-pointer checks of the source are not
modelled. -/
def validateDateTime : Option DateTime → VCardErrorCode
  | none => .OK
  | some dt =>
    if dt.isText then
      if !dt.date.isEmpty || !dt.time.isEmpty || dt.UTC then .INV_DT
      else if dt.text.isEmpty then .INV_DT
      else .OK
    else
      if !dt.text.isEmpty then .INV_DT
      else if dt.date.isEmpty && dt.time.isEmpty then .INV_DT
      else if !dt.date.isEmpty && !(dt.date.length == 8) then .INV_DT
      else if !dt.time.isEmpty && !(dt.time.length == 6) then .INV_DT
      else .OK

/-- `validateProperty` (CardWriter.c:196-253).  The embedded `Property`
always holds its four fields, so the `NULL` checks are not modelled; the
per-value `NULL` scan at the end is likewise dead and omitted. -/
def validateProperty (prop : Property) (optFlag : Bool) : VCardErrorCode :=
  if prop.name.isEmpty then .INV_PROP
  else if optFlag && prop.name == "VERSION".toList then .INV_CARD
  else if !isValidPropertyName prop.name then .INV_PROP
  else if prop.parameters.any (fun pa => pa.name.isEmpty || pa.value.isEmpty) then .INV_PROP
  else if prop.values.isEmpty then .INV_PROP
  else if prop.name == "N".toList && !(prop.values.length == 5) then .INV_PROP
  else .OK

/-- The optional-properties loop of `validateCard` (CardWriter.c:281-305),
threading the `hasN` flag; on success it returns the final flag. -/
def valOptsLoop : List Property → Bool → Except VCardErrorCode Bool
  | [], hasN => .ok hasN
  | p :: rest, hasN =>
    if p.name == "BDAY".toList || p.name == "ANNIVERSARY".toList then .error .INV_DT
    else
      let r := validateProperty p true
      if r ≠ .OK then .error r
      else if p.name == "N".toList then
        if hasN then .error .INV_PROP else valOptsLoop rest true
      else valOptsLoop rest hasN

/-- `validateCard` (CardWriter.c:255-320). -/
def validateCard : Option Card → VCardErrorCode
  | none => .INV_CARD
  | some obj =>
    match obj.fn with
    | none => .INV_CARD
    | some f =>
      let fnResult := validateProperty f false
      if fnResult ≠ .OK then fnResult
      else
        match obj.optionalProperties with
        | none => .INV_CARD
        | some opts =>
          match valOptsLoop opts false with
          | .error e => e
          | .ok _ =>
            let bdayResult := validateDateTime obj.birthday
            if bdayResult ≠ .OK then bdayResult
            else
              let annivResult := validateDateTime obj.anniversary
              if annivResult ≠ .OK then annivResult
              else .OK

/-- Whether a serialized line begins with the two characters `FN` (the shape
of the required FN property line of the wire format). -/
def startsWithFN : Str → Bool
  | c1 :: c2 :: _ => c1 == 'F' && c2 == 'N'
  | _ => false

/-- Physical lines for a file whose lines all end with proper CRLF. -/
def mkLines (ls : List String) : List PhysLine :=
  ls.map (fun s => { content := s.toList, crlf := true })

/-! Concrete cards and inputs used by the individual verification results. -/

/-- An FN property with the single value `John`. -/
def fnJohn : Property :=
  { name := "FN".toList, group := [], parameters := [], values := ["John".toList] }

/-- A structured birthday with an 8-character date and a 6-character time,
exactly what `createCard` builds from a `BDAY:20200101T120000` line. -/
def bdayStruct : DateTime :=
  { UTC := false, isText := false, date := "20200101".toList,
    time := "120000".toList, text := [] }

/-- A card `validateCard` accepts: a valid FN, no optionals, the structured
birthday above. -/
def cardRT : Card :=
  { fn := some fnJohn, optionalProperties := some [], birthday := some bdayStruct,
    anniversary := none }

/-- What re-parsing `writeCard`'s output for `cardRT` produces: the birthday
collapses into a 14-character date with an empty time. -/
def cardRTBack : Card :=
  { fn := some fnJohn, optionalProperties := some [],
    birthday := some { UTC := false, isText := false,
                       date := "20200101120000".toList, time := [], text := [] },
    anniversary := none }

/-- The concrete input of the compound-splitting scenario. -/
def linesC2 : List PhysLine :=
  mkLines ["BEGIN:VCARD", "VERSION:4.0", "FN:John Doe", "N:Doe;John;;;", "END:VCARD"]

/-- The card the parser builds from `linesC2`: note the `N` property holds
only four values. -/
def cardC2 : Card :=
  { fn := some { name := "FN".toList, group := [], parameters := [],
                 values := ["John Doe".toList] },
    optionalProperties :=
      some [{ name := "N".toList, group := [], parameters := [],
              values := ["Doe".toList, "John".toList, [], []] }],
    birthday := none, anniversary := none }

/-- Input with a lowercase `tel` property line. -/
def linesC9 : List PhysLine :=
  mkLines ["BEGIN:VCARD", "VERSION:4.0", "FN:John Doe", "tel:555-1234", "END:VCARD"]

/-- The card parsed from `linesC9`: the lowercase spelling `tel` is kept. -/
def cardC9 : Card :=
  { fn := some { name := "FN".toList, group := [], parameters := [],
                 values := ["John Doe".toList] },
    optionalProperties :=
      some [{ name := "tel".toList, group := [], parameters := [],
              values := ["555-1234".toList] }],
    birthday := none, anniversary := none }

/-- A card input with no `VERSION` line. -/
def linesNoVersion : List PhysLine :=
  mkLines ["BEGIN:VCARD", "FN:John Doe", "END:VCARD"]

/-- An `N` property with five values (each individually fine). -/
def nProp5 : Property :=
  { name := "N".toList, group := [], parameters := [],
    values := ["a".toList, "b".toList, "c".toList, "d".toList, "e".toList] }

/-- A card with two `N` optional properties and no FN. -/
def cardTwoN : Card :=
  { fn := none, optionalProperties := some [nProp5, nProp5],
    birthday := none, anniversary := none }

/-- A `BDAY`-named property sitting in the optional-properties sequence. -/
def bdayOptProp : Property :=
  { name := "BDAY".toList, group := [], parameters := [], values := ["19900101".toList] }

/-- A card with a `BDAY`-named optional property and no FN. -/
def cardBdayOpt : Card :=
  { fn := none, optionalProperties := some [bdayOptProp],
    birthday := none, anniversary := none }

/-- A non-compound (TEL) property one of whose values contains `ext=`. -/
def telExtProp : Property :=
  { name := "TEL".toList, group := [], parameters := [],
    values := ["5551234".toList, "ext=22".toList] }

/-! ## Helper lemmas -/

/-- Case-insensitive equality with one name transfers along case-insensitive
inequality with another. -/
lemma ciEq_of_ciEq_ne {a p q : Str} (h : ciEqStr a p = true)
    (hpq : ciEqStr p q = false) : ciEqStr a q = false := by
  unfold ciEqStr at *
  rw [beq_iff_eq] at h
  rw [h]
  exact hpq

/-- A successful prefix run of the optional-properties loop composes with the
rest of the list. -/
lemma valOptsLoop_append (pre rest : List Property) (b b' : Bool)
    (h : valOptsLoop pre b = .ok b') :
    valOptsLoop (pre ++ rest) b = valOptsLoop rest b' := by
  induction pre generalizing b with
  | nil =>
    simp only [valOptsLoop] at h
    cases h
    simp
  | cons p tl ih =>
    simp only [valOptsLoop, List.cons_append] at h ⊢
    by_cases hbd : (p.name == "BDAY".toList || p.name == "ANNIVERSARY".toList) = true
    · rw [if_pos hbd] at h; cases h
    · rw [if_neg hbd] at h ⊢
      by_cases hr : validateProperty p true ≠ .OK
      · rw [if_pos hr] at h; cases h
      · rw [if_neg hr] at h ⊢
        by_cases hn : (p.name == "N".toList) = true
        · rw [if_pos hn] at h ⊢
          by_cases hh : b = true
          · rw [if_pos hh] at h; cases h
          · rw [if_neg hh] at h ⊢; exact ih true h
        · rw [if_neg hn] at h ⊢; exact ih b h

/-- For a property named `N`, per-property validation can only answer `OK`
or `INV_PROP`. -/
lemma validateProperty_of_N (p : Property) (h : p.name = "N".toList) :
    validateProperty p true = .OK ∨ validateProperty p true = .INV_PROP := by
  unfold validateProperty
  rw [h]
  rw [if_neg (by decide), if_neg (by decide), if_neg (by decide)]
  split_ifs <;> simp

/-- With the `hasN` flag already set, the loop rejects a further `N` property
with `INV_PROP`. -/
lemma valOptsLoop_secondN (p : Property) (rest : List Property)
    (h : p.name = "N".toList) :
    valOptsLoop (p :: rest) true = .error .INV_PROP := by
  simp only [valOptsLoop]
  rw [if_neg (show ¬((p.name == "BDAY".toList || p.name == "ANNIVERSARY".toList) = true) by
    rw [h]; decide)]
  rcases validateProperty_of_N p h with hv | hv
  · rw [if_neg (show ¬(validateProperty p true ≠ .OK) by simp [hv]),
      if_pos (show (p.name == "N".toList) = true by rw [h]; decide)]
    simp
  · rw [if_pos (show validateProperty p true ≠ .OK by simp [hv]), hv]

/-! ## Theorems -/

/-- Claim C1 (code bug).  The round-trip claim fails on an ordinary valid
card: `cardRT` passes `validateCard`, none of its values contains `ext=`,
yet re-parsing `writeCard`'s output yields `cardRTBack`, whose birthday has
date `20200101120000` and empty time instead of date `20200101` and time
`120000` — `dateToString` concatenates date and time without the `T`
separator the parser splits on, so the re-parsed card is not structurally
equivalent (and even fails validation with `INV_DT`). -/
theorem vcardC1_roundTripBug :
    validateCard (some cardRT) = .OK
    ∧ fnJohn.values.all (fun v => !hasSub extPat v) = true
    ∧ writeCard (some cardRT) = .ok (writeCardLines cardRT)
    ∧ createCardLines ((writeCardLines cardRT).map (fun s => { content := s, crlf := true }))
        = .ok cardRTBack
    ∧ cardRTBack.birthday ≠ cardRT.birthday
    ∧ validateCard (some cardRTBack) = .INV_DT :=
  ⟨rfl, rfl, rfl, rfl, by decide, rfl⟩

/-- Claim C2 (code bug).  Splitting the compound value `Doe;John;;;` drops
the empty field after the final `;`: the field loop of `addValuesToList`
exits at the string terminator, so the parse of the claim's input yields an
`N` property with only the four values `Doe`, `John`, ``, `` — not five —
and `validateCard` consequently rejects the card with `INV_PROP` instead of
accepting it. -/
theorem vcardC2_splitBug :
    splitCompound ("Doe;John;;;".toList) = ["Doe".toList, "John".toList, [], []]
    ∧ createCardLines linesC2 = .ok cardC2
    ∧ cardC2.optionalProperties =
        some [{ name := "N".toList, group := [], parameters := [],
                values := ["Doe".toList, "John".toList, [], []] }]
    ∧ validateCard (some cardC2) = .INV_PROP :=
  ⟨rfl, rfl, rfl, rfl⟩

/-- Claim C3, counterexample.  `propertyToString` — the function that
serializes a property line, used by `writeCard` — applies no `ext=`
exception at all: for the non-compound property `telExtProp`, whose second
value contains `ext=`, the delimiter written is `,`, not the `;` the claim
requires for the whole value list. -/
theorem vcardC3_cex :
    isCompoundProperty telExtProp.name = false
    ∧ hasSub extPat ("ext=22".toList) = true
    ∧ propertyToString telExtProp = "TEL:5551234,ext=22".toList :=
  ⟨rfl, rfl, rfl⟩

/-- Claim C4, counterexample.  On the continuation line `"  C"` (two leading
spaces) the reader strips the first space and then the remaining whitespace
as well, producing the logical line `ABC`; stripping exactly one whitespace
character, as the claim states, would produce `AB C`. -/
theorem vcardC4_cex :
    readFoldedLine 1000
        [{ content := "AB".toList, crlf := true },
         { content := "  C".toList, crlf := true }]
      = .line "ABC".toList []
    ∧ "ABC".toList ≠ "AB C".toList :=
  ⟨rfl, by decide⟩

/-- Claim C6, counterexample.  `cardTwoN` has two `N` optional properties,
but `validateCard` returns `INV_CARD` (its missing-FN check fires first),
not `INV_PROP` as the claim states for every such card. -/
theorem vcardC6_cex :
    cardTwoN.optionalProperties = some [nProp5, nProp5]
    ∧ nProp5.name = "N".toList
    ∧ validateCard (some cardTwoN) = .INV_CARD
    ∧ VCardErrorCode.INV_CARD ≠ VCardErrorCode.INV_PROP :=
  ⟨rfl, rfl, rfl, by decide⟩

/-- Claim C8, counterexample.  `cardBdayOpt` has a `BDAY`-named optional
property, but `validateCard` returns `INV_CARD` (its missing-FN check fires
first), not `INV_DT` as the claim states for every such card. -/
theorem vcardC8_cex :
    cardBdayOpt.optionalProperties = some [bdayOptProp]
    ∧ bdayOptProp.name = "BDAY".toList
    ∧ validateCard (some cardBdayOpt) = .INV_CARD
    ∧ VCardErrorCode.INV_CARD ≠ VCardErrorCode.INV_DT :=
  ⟨rfl, rfl, rfl, by decide⟩

/-- Claim C9 (confirmed).  `createCard` dispatches on property names
case-insensitively but stores the original spelling, while `validateCard`
compares names to the whitelist with case-sensitive `strcmp`: the input with
the line `tel:555-1234` parses with `OK` into `cardC9`, whose optional
property keeps the lowercase name `tel`, and that card then fails
`validateCard` with `INV_PROP`. -/
theorem vcardC9_caseSensitivity :
    createCardLines linesC9 = .ok cardC9
    ∧ cardC9.optionalProperties =
        some [{ name := "tel".toList, group := [], parameters := [],
                values := ["555-1234".toList] }]
    ∧ validateCard (some cardC9) = .INV_PROP :=
  ⟨rfl, rfl, rfl⟩

/-- Claim C7 (confirmed).  Building a DateTime from a raw value: with the
text hint set the raw value is stored verbatim as text, date and time are
empty and UTC is false; otherwise a value beginning with `T` gives an empty
date and everything after the `T` as time; otherwise the value splits at its
first `T` into date and time, the whole value being the date (with empty
time) when no `T` occurs.  The text hint of the stored `BDAY`/`ANNIVERSARY`
DateTime is exactly the presence of a `VALUE=text` parameter on the owning
property, as the last two parts state for `handleSpecialProperty`. -/
theorem vcardC7_dateTime :
    (∀ v : Str, createDateTime v true =
      { UTC := false, isText := true, date := [], time := [], text := v })
    ∧ (∀ v : Str, v.head? = some 'T' →
      createDateTime v false =
        { UTC := false, isText := false, date := [], time := v.tail, text := [] })
    ∧ (∀ v : Str, v.head? ≠ some 'T' → v.contains 'T' = true →
      createDateTime v false =
        { UTC := false, isText := false, date := v.takeWhile (· != 'T'),
          time := (v.dropWhile (· != 'T')).drop 1, text := [] })
    ∧ (∀ v : Str, v.contains 'T' = false →
      createDateTime v false =
        { UTC := false, isText := false, date := v, time := [], text := [] })
    ∧ (∀ (st : BuildState) (n v : Str) (tmp : Property),
        ciEqStr (n.takeWhile (· != ';')) "BDAY".toList = true →
        st.birthday = none → createProperty n v = some tmp →
        handleSpecialProperty st n v =
          .ok { st with birthday := some (createDateTime v (hasTextParam tmp)) })
    ∧ (∀ (st : BuildState) (n v : Str) (tmp : Property),
        ciEqStr (n.takeWhile (· != ';')) "ANNIVERSARY".toList = true →
        st.anniversary = none → createProperty n v = some tmp →
        handleSpecialProperty st n v =
          .ok { st with anniversary := some (createDateTime v (hasTextParam tmp)) }) := by
  refine ⟨fun v => rfl, fun v h => ?_, fun v h1 h2 => ?_, fun v h => ?_,
    fun st n v tmp h1 h2 h3 => ?_, fun st n v tmp h1 h2 h3 => ?_⟩
  · simp [createDateTime, h]
  · have hmem : 'T' ∈ v := by simpa using h2
    simp [createDateTime, splitAtFirst, h1, hmem]
  · have hh : v.head? ≠ some 'T' := by
      cases v with
      | nil => simp
      | cons c tl =>
        simp only [List.contains_cons] at h
        simp only [List.head?, Option.some.injEq]
        intro hc
        rw [Option.some.injEq] at hc
        subst hc
        simp at h
    have hnm : ¬('T' ∈ v) := by simpa using h
    simp [createDateTime, splitAtFirst, hh, hnm]
  · have hv := ciEq_of_ciEq_ne h1 (show ciEqStr "BDAY".toList "VERSION".toList = false by decide)
    have hf := ciEq_of_ciEq_ne h1 (show ciEqStr "BDAY".toList "FN".toList = false by decide)
    have ha := ciEq_of_ciEq_ne h1
      (show ciEqStr "BDAY".toList "ANNIVERSARY".toList = false by decide)
    simp only [handleSpecialProperty, hv, hf, ha, h1, h2, h3]
    simp
  · have hv := ciEq_of_ciEq_ne h1
      (show ciEqStr "ANNIVERSARY".toList "VERSION".toList = false by decide)
    have hf := ciEq_of_ciEq_ne h1 (show ciEqStr "ANNIVERSARY".toList "FN".toList = false by decide)
    simp only [handleSpecialProperty, hv, hf, h1, h2, h3]
    simp

/-- Claim C7, witness: the general theorem applied to the concrete values
`T120000` (time-only) and `19900101T120000` (date and time), discharging the
head and occurrence hypotheses by computation. -/
theorem vcardC7_witness :
    createDateTime "T120000".toList false =
      { UTC := false, isText := false, date := [], time := ("T120000".toList).tail, text := [] }
    ∧ createDateTime "19900101T120000".toList false =
      { UTC := false, isText := false,
        date := ("19900101T120000".toList).takeWhile (· != 'T'),
        time := (("19900101T120000".toList).dropWhile (· != 'T')).drop 1, text := [] } :=
  ⟨vcardC7_dateTime.2.1 _ (by decide),
   vcardC7_dateTime.2.2.1 _ (by decide) (by decide)⟩

/-- Claim C5 (confirmed).  `createCard` accepts only when the body run saw
`END:VCARD`, saw `FN`, saw `VERSION`, and recorded the version value as
exactly `4.0`; whenever the body run completes with any of the four missing,
the parse fails with `INV_CARD` instead of returning a card; in particular
the concrete input with no `VERSION` line fails with `INV_CARD`. -/
theorem vcardC5_requiredFlags :
    (∀ (lines : List PhysLine) (c : Card), createCardLines lines = .ok c →
      ∃ rest st, seekBegin lines = some rest
        ∧ processBody rest startState = .ok (st, true)
        ∧ st.foundFN = true ∧ st.foundVersion = true ∧ st.validVersion = true)
    ∧ (∀ (lines rest : List PhysLine) (st : BuildState) (fe : Bool),
        seekBegin lines = some rest →
        processBody rest startState = .ok (st, fe) →
        (fe = false ∨ st.foundFN = false ∨ st.foundVersion = false ∨
          st.validVersion = false) →
        createCardLines lines = .error .INV_CARD)
    ∧ createCardLines linesNoVersion = .error .INV_CARD := by
  refine ⟨fun lines c h => ?_, fun lines rest st fe hseek hbody hcond => ?_, rfl⟩
  · unfold createCardLines at h
    rcases hseek : seekBegin lines with _ | rest
    · simp only [hseek] at h
      exact Except.noConfusion h
    · simp only [hseek] at h
      rcases hbody : processBody rest startState with e | stp
      · simp only [hbody] at h
        exact Except.noConfusion h
      · rcases stp with ⟨st, fe⟩
        simp only [hbody] at h
        by_cases hc : (fe = false ∨ st.foundFN = false ∨ st.foundVersion = false ∨
            st.validVersion = false)
        · rw [if_pos hc] at h
          exact Except.noConfusion h
        · push_neg at hc
          obtain ⟨h1, h2, h3, h4⟩ := hc
          have hfe : fe = true := by cases fe with
            | false => exact absurd rfl h1
            | true => rfl
          refine ⟨rest, st, rfl, ?_, ?_, ?_, ?_⟩
          · rw [← hfe]; exact hbody
          · cases hfn : st.foundFN with
            | false => exact absurd hfn h2
            | true => rfl
          · cases hfv : st.foundVersion with
            | false => exact absurd hfv h3
            | true => rfl
          · cases hvv : st.validVersion with
            | false => exact absurd hvv h4
            | true => rfl
  · unfold createCardLines
    simp only [hseek, hbody]
    rw [if_pos hcond]

/-- Claim C5, witness: the rejection part of the theorem applied to the
concrete no-`VERSION` input, with the seek and body runs discharged by
computation. -/
theorem vcardC5_witness : createCardLines linesNoVersion = .error .INV_CARD :=
  vcardC5_requiredFlags.2.1 linesNoVersion
    (mkLines ["FN:John Doe", "END:VCARD"])
    { fn := some { name := "FN".toList, group := [], parameters := [],
                   values := ["John Doe".toList] },
      optionalProperties := [], birthday := none, anniversary := none,
      foundFN := true, foundVersion := false, validVersion := false }
    true rfl rfl (Or.inr (Or.inr (Or.inl rfl)))

/-- Claim C6 (corrected).  Parse side, as claimed: once a `VERSION` was
already seen (resp. a birthday or anniversary already stored), dispatching a
line whose base name is `VERSION` (resp. `BDAY`, `ANNIVERSARY`) yields
`INV_CARD`, and any such dispatch error aborts the body loop with that very
error.  Validator side, corrected: a second `N` optional property makes
`validateCard` fail with `INV_PROP` provided the earlier validator checks
pass — FN present and valid, and the optionals before the second `N`
validate, the first `N` among them. -/
theorem vcardC6_cardinality :
    (∀ (st : BuildState) (n v : Str),
      ciEqStr (n.takeWhile (· != ';')) "VERSION".toList = true →
      st.foundVersion = true →
      handleSpecialProperty st n v = .error .INV_CARD)
    ∧ (∀ (st : BuildState) (n v : Str) (d : DateTime),
      ciEqStr (n.takeWhile (· != ';')) "BDAY".toList = true →
      st.birthday = some d →
      handleSpecialProperty st n v = .error .INV_CARD)
    ∧ (∀ (st : BuildState) (n v : Str) (d : DateTime),
      ciEqStr (n.takeWhile (· != ';')) "ANNIVERSARY".toList = true →
      st.anniversary = some d →
      handleSpecialProperty st n v = .error .INV_CARD)
    ∧ (∀ (lines : List PhysLine) (content : Str) (rest : List PhysLine)
        (st : BuildState) (n v : Str) (tmp : Property) (e : VCardErrorCode),
        readFoldedLine 1000 lines = .line content rest →
        ciEqStr (trimWhitespace content) "END:VCARD".toList = false →
        validatePropertyLine (trimWhitespace content) = .ok (n, v) →
        createProperty n v = some tmp →
        tmp.name.isEmpty = false →
        handleSpecialProperty st n v = .error e →
        processBody lines st = .error e)
    ∧ (∀ (c : Card) (f : Property) (pre : List Property) (p : Property)
        (post : List Property), c.fn = some f → validateProperty f false = .OK →
        c.optionalProperties = some (pre ++ p :: post) →
        valOptsLoop pre false = .ok true → p.name = "N".toList →
        validateCard (some c) = .INV_PROP) := by
  refine ⟨fun st n v h1 h2 => ?_, fun st n v d h1 h2 => ?_, fun st n v d h1 h2 => ?_,
    fun lines content rest st n v tmp e hrd hend hvpl hcp hne hsp => ?_,
    fun c f pre p post hfn hfv hopts hpre hn => ?_⟩
  · simp only [handleSpecialProperty, h1, h2]
    simp
  · have hv := ciEq_of_ciEq_ne h1 (show ciEqStr "BDAY".toList "VERSION".toList = false by decide)
    have hf := ciEq_of_ciEq_ne h1 (show ciEqStr "BDAY".toList "FN".toList = false by decide)
    have ha := ciEq_of_ciEq_ne h1
      (show ciEqStr "BDAY".toList "ANNIVERSARY".toList = false by decide)
    simp only [handleSpecialProperty, hv, hf, ha, h1, h2]
    simp
  · have hv := ciEq_of_ciEq_ne h1
      (show ciEqStr "ANNIVERSARY".toList "VERSION".toList = false by decide)
    have hf := ciEq_of_ciEq_ne h1 (show ciEqStr "ANNIVERSARY".toList "FN".toList = false by decide)
    simp only [handleSpecialProperty, hv, hf, h1, h2]
    simp
  · show processBodyF (lines.length + 1) lines st = .error e
    have hne2 : content.isEmpty = false := by
      cases content with
      | nil => exact Except.noConfusion hvpl
      | cons c t => rfl
    simp only [processBodyF, hrd, hne2, hend, hvpl, hcp, hne, hsp]
    simp
  · unfold validateCard
    simp only [hfn, hopts]
    rw [if_neg (show ¬(validateProperty f false ≠ .OK) by simp [hfv])]
    rw [valOptsLoop_append pre (p :: post) false true hpre, valOptsLoop_secondN p post hn]

/-- Claim C6, witness: the duplicate-`VERSION` part of the theorem applied
to a state that has already seen a version line. -/
theorem vcardC6_witness :
    handleSpecialProperty { startState with foundVersion := true }
      "VERSION".toList "4.0".toList = .error .INV_CARD :=
  vcardC6_cardinality.1 _ _ _ (by decide) rfl

/-- Claim C8 (corrected).  The optional-properties loop rejects a property
named `BDAY` or `ANNIVERSARY` with `INV_DT` before running per-property
validation on it (the first part holds for every such property, whatever its
other fields); and `validateCard` returns `INV_DT` for a card carrying such
a property provided its earlier checks pass — FN present and valid, and the
optionals before the offending property validating cleanly. -/
theorem vcardC8_optionalDate :
    (∀ (p : Property) (rest : List Property) (hasN : Bool),
      p.name = "BDAY".toList ∨ p.name = "ANNIVERSARY".toList →
      valOptsLoop (p :: rest) hasN = .error .INV_DT)
    ∧ (∀ (c : Card) (f : Property) (pre : List Property) (p : Property)
        (post : List Property) (b : Bool),
        c.fn = some f → validateProperty f false = .OK →
        c.optionalProperties = some (pre ++ p :: post) →
        valOptsLoop pre false = .ok b →
        p.name = "BDAY".toList ∨ p.name = "ANNIVERSARY".toList →
        validateCard (some c) = .INV_DT) := by
  have hstep : ∀ (p : Property) (rest : List Property) (hasN : Bool),
      p.name = "BDAY".toList ∨ p.name = "ANNIVERSARY".toList →
      valOptsLoop (p :: rest) hasN = .error .INV_DT := by
    intro p rest hasN h
    simp only [valOptsLoop]
    rw [if_pos ?hc]
    case hc =>
      rcases h with h | h <;> rw [h] <;> decide
  refine ⟨hstep, fun c f pre p post b hfn hfv hopts hpre hp => ?_⟩
  unfold validateCard
  simp only [hfn, hopts]
  rw [if_neg (show ¬(validateProperty f false ≠ .OK) by simp [hfv])]
  rw [valOptsLoop_append pre (p :: post) false b hpre, hstep p post b hp]

/-- Claim C8, witness: the loop part of the theorem applied to the concrete
`BDAY`-named optional property. -/
theorem vcardC8_witness : valOptsLoop [bdayOptProp] false = .error .INV_DT :=
  vcardC8_optionalDate.1 bdayOptProp [] false (Or.inl rfl)

/-- Joining a non-empty list of strings with a one-character delimiter puts
exactly that delimiter character in front of every element after the
first. -/
lemma joinWith_eq_concat (d : Char) (v1 : Str) (vs : List Str) :
    joinWith d (v1 :: vs) = v1 ++ concatAll (vs.map (fun v => d :: v)) := by
  induction vs generalizing v1 with
  | nil => simp [joinWith, concatAll]
  | cons v2 tl ih =>
    show v1 ++ d :: joinWith d (v2 :: tl) = _
    rw [ih v2]
    simp [concatAll]

/-- The tail of `listToString` for a non-parameter list: every element after
the first is preceded by `;` when it contains `ext=` and by `,` when it does
not. -/
lemma listToStringTail_otherK (rest : List Str) :
    listToStringTail .otherK rest =
      concatAll (rest.map (fun s => (if hasSub extPat s then ';' else ',') :: s)) := by
  induction rest with
  | nil => rfl
  | cons s tl ih =>
    show (if hasSub extPat s then ';' else ',') :: s ++ listToStringTail .otherK tl = _
    rw [ih]
    simp [concatAll]

/-- The tail of `listToString` for a parameter list: every element after the
first is preceded by `;`. -/
lemma listToStringTail_paramK (rest : List Str) :
    listToStringTail .paramK rest = concatAll (rest.map (fun s => ';' :: s)) := by
  induction rest with
  | nil => rfl
  | cons s tl ih =>
    show ';' :: s ++ listToStringTail .paramK tl = _
    rw [ih]
    simp [concatAll]

/-- Claim C3 (corrected).  In `propertyToString` — the serializer for
property lines, used by `writeCard` — the delimiter before every value after
the first is fixed by the property name alone, for every property, group,
parameter list and value list of any length, with no hypothesis on the
values' content and hence no `ext=` exception: one `;` per subsequent value
for a compound property and one `,` otherwise (first part); a name is
compound exactly when it equals `N` or `ADR` case-insensitively (second
part).  The `ext=` heuristic lives only in `listToString` (reached via
`cardToString`), where the separator is chosen per element of a list of any
length: `;` before each element containing `ext=`, `,` before each that
does not (third part), and always `;` for parameter lists (fourth part). -/
theorem vcardC3_delimiters :
    (∀ (p : Property) (v1 : Str) (vs : List Str), p.values = v1 :: vs →
      propertyToString p =
        (if p.group.isEmpty then ([] : Str) else p.group ++ ['.']) ++ p.name
          ++ concatAll (p.parameters.map paramToChunk)
          ++ ':' :: (v1 ++ concatAll (vs.map (fun v =>
                (if isCompoundProperty p.name then ';' else ',') :: v))))
    ∧ (∀ name : Str, isCompoundProperty name = true ↔
        (ciEqStr name "N".toList = true ∨ ciEqStr name "ADR".toList = true))
    ∧ (∀ (s1 : Str) (rest : List Str), listToString .otherK (s1 :: rest) =
        s1 ++ concatAll (rest.map (fun s => (if hasSub extPat s then ';' else ',') :: s)))
    ∧ (∀ (s1 : Str) (rest : List Str), listToString .paramK (s1 :: rest) =
        s1 ++ concatAll (rest.map (fun s => ';' :: s))) := by
  refine ⟨fun p v1 vs h => ?_, fun name => ?_, fun s1 rest => ?_, fun s1 rest => ?_⟩
  · unfold propertyToString
    rw [h, joinWith_eq_concat]
  · simp [isCompoundProperty, Bool.or_eq_true]
  · show s1 ++ listToStringTail .otherK rest = _
    rw [listToStringTail_otherK]
  · show s1 ++ listToStringTail .paramK rest = _
    rw [listToStringTail_paramK]

/-- Claim C3, witness: the universal delimiter rule applied to the concrete
non-compound property `telExtProp`, whose second value contains `ext=`: the
serialized line still separates the values with `,`. -/
theorem vcardC3_witness :
    hasSub extPat ("ext=22".toList) = true
    ∧ propertyToString telExtProp =
        (if telExtProp.group.isEmpty then ([] : Str) else telExtProp.group ++ ['.'])
          ++ telExtProp.name ++ concatAll (telExtProp.parameters.map paramToChunk)
          ++ ':' :: ("5551234".toList ++ concatAll (["ext=22".toList].map (fun v =>
                (if isCompoundProperty telExtProp.name then ';' else ',') :: v))) :=
  ⟨by decide, vcardC3_delimiters.1 telExtProp ("5551234".toList) ["ext=22".toList] rfl⟩

/-- The folding loop concatenates continuation segments verbatim when each
segment begins with a non-whitespace character and the capacities are
respected. -/
lemma foldLoop_segs (segs : List Str) : ∀ (bufSize : Nat) (buf : Str),
    (∀ s ∈ segs, s.dropWhile isSpaceC = s ∧ s.length + 4 ≤ nextBufCap) →
    buf.length + (segs.map List.length).sum + 2 ≤ bufSize →
    foldLoop bufSize buf (segs.map (fun s => { content := ' ' :: s, crlf := true }))
      = .line (buf ++ concatAll segs) [] := by
  induction segs with
  | nil =>
    intro bufSize buf _ _
    simp [foldLoop, concatAll]
  | cons s tl ih =>
    intro bufSize buf hseg hcap
    obtain ⟨hds, hlen⟩ := hseg s (by simp)
    have hsum : buf.length + s.length + (tl.map List.length).sum + 2 ≤ bufSize := by
      simp only [List.map_cons, List.sum_cons] at hcap
      omega
    have hfold : (((' ' :: s : Str)).drop 1).dropWhile isSpaceC = s := by
      simpa using hds
    simp only [List.map_cons, foldLoop]
    rw [if_neg (show ¬(isContinuation (' ' :: s) = false) by simp [isContinuation])]
    rw [if_neg ?hbad]
    case hbad =>
      push_neg
      refine ⟨by simp, ?_⟩
      have hnb : nextBufCap = 1000 := rfl
      simp only [List.length_cons]
      omega
    rw [hfold]
    rw [if_pos (show s.length < bufSize - buf.length - 1 by omega)]
    rw [ih bufSize (buf ++ s) (fun t ht => hseg t (by simp [ht])) (by simp; omega)]
    simp [concatAll]

/-- Claim C4 (corrected).  The reader strips the leading whitespace
character of a continuation line and then any further whitespace immediately
after it; consequently a logical line split across N physical continuation
lines reconstructs to the identical unfolded string whenever the remainder
appended on each continuation line begins with a non-whitespace character
(and the pieces fit the fixed read and fold buffers). -/
theorem vcardC4_folding :
    ∀ (bufSize : Nat) (first : Str) (segs : List Str),
      first.length + 3 ≤ bufSize →
      (∀ s ∈ segs, s.dropWhile isSpaceC = s ∧ s.length + 4 ≤ nextBufCap) →
      first.length + (segs.map List.length).sum + 2 ≤ bufSize →
      readFoldedLine bufSize
          ({ content := first, crlf := true } ::
            segs.map (fun s => { content := ' ' :: s, crlf := true }))
        = .line (first ++ concatAll segs) [] := by
  intro bufSize first segs h1 h2 h3
  simp only [readFoldedLine]
  rw [if_neg ?hfit]
  case hfit =>
    push_neg
    exact ⟨by simp, by omega⟩
  exact foldLoop_segs segs bufSize first h2 h3

/-- Claim C4, witness: the folding theorem applied to the line `AB` followed
by two continuation lines ` C` and ` DE`, reconstructing `ABCDE`. -/
theorem vcardC4_witness :
    readFoldedLine 1000
        ({ content := "AB".toList, crlf := true } ::
          ["C".toList, "DE".toList].map (fun s => { content := ' ' :: s, crlf := true }))
      = .line ("AB".toList ++ concatAll ["C".toList, "DE".toList]) [] :=
  vcardC4_folding 1000 _ _ (by decide) (by decide) (by decide)

/-- A string headed by a character other than `F` does not start with `FN`. -/
lemma startsWithFN_false_head (c : Char) (tl : Str) (hc : (c == 'F') = false) :
    startsWithFN (c :: tl) = false := by
  cases tl with
  | nil => rfl
  | cons c2 t => simp [startsWithFN, hc]

/-- A string whose second character is not `N` does not start with `FN`. -/
lemma startsWithFN_false_second (c1 c2 : Char) (tl : Str) (hc : (c2 == 'N') = false) :
    startsWithFN (c1 :: c2 :: tl) = false := by
  simp [startsWithFN, hc]

/-- Appending a suffix headed by `:` or `;` or `.` to a string that does not
start with `FN` cannot create a string starting with `FN`. -/
lemma startsWithFN_append (a b : Str) (ha : startsWithFN a = false)
    (hb : b.head? = some ':' ∨ b.head? = some ';' ∨ b.head? = some '.') :
    startsWithFN (a ++ b) = false := by
  have hbchar : ∀ (c : Char) (bs : Str), b = c :: bs →
      (c == 'N') = false ∧ (c == 'F') = false := by
    intro c bs hbb
    subst hbb
    rcases hb with h | h | h <;>
      simp only [List.head?_cons, Option.some.injEq] at h <;>
      subst h <;> exact ⟨by decide, by decide⟩
  rcases a with _ | ⟨c, _ | ⟨c2, t⟩⟩
  · rw [List.nil_append]
    cases b with
    | nil => rfl
    | cons cb bs => exact startsWithFN_false_head cb bs (hbchar cb bs rfl).2
  · cases b with
    | nil => rw [List.append_nil]; rfl
    | cons cb bs => exact startsWithFN_false_second c cb bs (hbchar cb bs rfl).1
  · simpa [startsWithFN] using ha

/-- A serialized property line starts with `FN` only if its name (for a
groupless property) or its group starts with `FN`. -/
lemma startsWithFN_propLine (p : Property) (hn : startsWithFN p.name = false)
    (hg : startsWithFN p.group = false) :
    startsWithFN (propertyToString p) = false := by
  unfold propertyToString
  by_cases hge : p.group.isEmpty
  · rw [if_pos hge, List.nil_append, List.append_assoc]
    apply startsWithFN_append _ _ hn
    cases hp : p.parameters with
    | nil => left; simp [concatAll]
    | cons pa rest =>
      right; left
      simp [concatAll, paramToChunk]
  · rw [if_neg hge, List.append_assoc, List.append_assoc, List.append_assoc]
    apply startsWithFN_append _ _ hg
    right; right
    simp

/-- The serialized BDAY line of a card never starts with `FN`. -/
lemma startsWithFN_dtLine_bday (d : DateTime) :
    startsWithFN (dtLine "BDAY".toList d) = false := by
  unfold dtLine
  split_ifs <;> rfl

/-- The serialized ANNIVERSARY line of a card never starts with `FN`. -/
lemma startsWithFN_dtLine_anniv (d : DateTime) :
    startsWithFN (dtLine "ANNIVERSARY".toList d) = false := by
  unfold dtLine
  split_ifs <;> rfl

/-- All lines emitted for the optional birthday field avoid an `FN` head. -/
lemma startsWithFN_dtLines_bday (o : Option DateTime) :
    ∀ l ∈ (match o with
           | none => ([] : List Str)
           | some d => [dtLine "BDAY".toList d]),
      startsWithFN l = false := by
  cases o with
  | none => simp
  | some d => simpa using startsWithFN_dtLine_bday d

/-- All lines emitted for the optional anniversary field avoid an `FN` head. -/
lemma startsWithFN_dtLines_anniv (o : Option DateTime) :
    ∀ l ∈ (match o with
           | none => ([] : List Str)
           | some d => [dtLine "ANNIVERSARY".toList d]),
      startsWithFN l = false := by
  cases o with
  | none => simp
  | some d => simpa using startsWithFN_dtLine_anniv d

/-- Claim C10 (confirmed).  `writeCard` validates nothing: for every card
whose `fn` field is absent it still reports success, its output being
exactly the BEGIN/VERSION bracketing, the optional-property lines, the date
lines and END — with no FN line contributed at all, so that (whenever the
remaining fields do not themselves smuggle in an `FN`-headed name or group)
no emitted line starts with `FN`, violating the wire format's required FN
line despite the reported success. -/
theorem vcardC10_writeUnvalidated :
    ∀ c : Card, c.fn = none →
      writeCard (some c) = .ok (writeCardLines c)
      ∧ writeCardLines c =
          ["BEGIN:VCARD".toList, "VERSION:4.0".toList]
            ++ (match c.optionalProperties with
                | none => [] | some l => l.map propertyToString)
            ++ (match c.birthday with
                | none => [] | some d => [dtLine "BDAY".toList d])
            ++ (match c.anniversary with
                | none => [] | some d => [dtLine "ANNIVERSARY".toList d])
            ++ ["END:VCARD".toList]
      ∧ (∀ ps, c.optionalProperties = some ps →
          (∀ p ∈ ps, startsWithFN p.name = false ∧ startsWithFN p.group = false) →
          ∀ l ∈ writeCardLines c, startsWithFN l = false) := by
  intro c hfn
  refine ⟨rfl, ?_, ?_⟩
  · simp [writeCardLines, hfn]
  · intro ps hps hall l hl
    simp only [writeCardLines, hfn, hps, List.mem_append] at hl
    rcases hl with ((((hl | hl) | hl) | hl) | hl) | hl
    · simp only [List.mem_cons, List.not_mem_nil, or_false] at hl
      rcases hl with h | h <;> subst h <;> decide
    · exact absurd hl (List.not_mem_nil l)
    · rw [List.mem_map] at hl
      obtain ⟨p, hp, rfl⟩ := hl
      exact startsWithFN_propLine p (hall p hp).1 (hall p hp).2
    · exact startsWithFN_dtLines_bday c.birthday l hl
    · exact startsWithFN_dtLines_anniv c.anniversary l hl
    · simp only [List.mem_singleton] at hl
      subst hl; decide

/-- Claim C10, witness: the theorem applied to a concrete FN-less card with
one TEL optional property and a birthday; no line of its output starts with
`FN`. -/
theorem vcardC10_witness :
    (writeCardLines { fn := none, optionalProperties := some [telExtProp],
                      birthday := some bdayStruct, anniversary := none }).all
        (fun l => !startsWithFN l) = true := by
  have h := (vcardC10_writeUnvalidated
    { fn := none, optionalProperties := some [telExtProp],
      birthday := some bdayStruct, anniversary := none } rfl).2.2 [telExtProp] rfl (by decide)
  rw [List.all_eq_true]
  intro l hl
  simp [h l hl]

end VC
